import Mathlib

/-!
# ddon_pcap_split: connection classifier, message framer and artifact selection

A shallow embedding of `knownhosts.go`, `tcpstream.go` and the output loop of
`main.go`.  Bytes are `Fin 256`, TCP ports are `Fin 65536` (Go `uint16`), Go
`int` values are `Nat`/`Int`, capture timestamps are natural numbers.

The `gopacket/reassembly` collaborator is represented by the small interface the
program uses: a `ScatterGather` value carrying the direction, the skip count, the
available bytes and the `KeepFrom` request.
-/

namespace DdonPcapSplit

/-- One octet of a captured stream. -/
abbrev Byte := Fin 256

/-- Go `layers.TCPPort`, an unsigned 16-bit port number. -/
abbrev TCPPort := Fin 65536

/-- Capture timestamp (`gopacket.CaptureInfo.Timestamp`), as an abstract instant. -/
abbrev Time := Nat

/-! ## knownhosts.go -/

/-- Go conversion `uint16(x)` of an `int`. -/
def uint16 (x : Int) : Nat := (x % 65536).toNat

def isLoginServer (port : Nat) : Bool := port == 52100

def isWorldServer (port : Nat) : Bool := port == 52000

/-- IsDDONServer checks if the port is a known DDON server port. -/
def IsDDONServer (port : Nat) : Bool := isLoginServer port || isWorldServer port

/-- The `knownHosts` map as filled by `init`, as an association list. -/
def knownHosts : List (String × String) :=
  [("106.185.74.101:52100", "Login Server"),
   ("106.185.74.173:52000", "Game server 1? (seen in stream61)"),
   ("106.185.74.227:52000", "Game server 2? (seen in stream61)")]

/-- Map read `v, ok := knownHosts[key]`. -/
def knownHostsGet (key : String) : Option String := knownHosts.lookup key

/-! ## Data model of tcpstream.go -/

/-- SplitPacket holds information about a single split packet. -/
structure SplitPacket where
  Timestamp : Time
  Direction : String
  Data : String
  deriving DecidableEq, Repr

/-- ConnectionLog holds information about a single split TCP connection. -/
structure ConnectionLog where
  ConnectionIndex : Nat
  Encrypted : Bool
  EncryptionKey : String
  LogStartTime : Time
  ServerType : String
  ServerName : String
  ServerIP : String
  isDDONConn : Bool
  Packets : List SplitPacket
  deriving DecidableEq, Repr

/-- CustomReassemblerContext holds context for packets passed through the reassembler. -/
structure CustomReassemblerContext where
  CaptureInfo : Time
  ConnectionLogs : List ConnectionLog
  deriving DecidableEq, Repr

/-- The receiver method `GetCaptureInfo`, reduced to the timestamp it is read for. -/
def CustomReassemblerContext.GetCaptureInfo (c : CustomReassemblerContext) : Time :=
  c.CaptureInfo

/-- A `gopacket.Flow`: a source and a destination endpoint. -/
structure Flow (α : Type) where
  src : α
  dst : α
  deriving DecidableEq, Repr

/-- Go `Flow.Reverse`: the same flow with its endpoints exchanged. -/
def Flow.Reverse {α : Type} (f : Flow α) : Flow α := ⟨f.dst, f.src⟩

/-- The fields of `layers.TCP` the program reads. -/
structure TCP where
  SrcPort : TCPPort
  DstPort : TCPPort
  deriving DecidableEq, Repr

/-- Go `reassembly.TCPFlowDirection`. -/
inductive TCPFlowDirection where
  | TCPDirClientToServer
  | TCPDirServerToClient
  deriving DecidableEq, Repr

/-- TCPStream represents a single (bidirectional) TCP stream.  The network flow holds the
textual addresses (`Endpoint.String`), the transport flow the two ports. -/
structure TCPStream where
  net : Flow String
  transport : Flow TCPPort
  connLog : ConnectionLog
  isSideSwapped : Bool
  isDDONConn : Bool
  deriving DecidableEq, Repr

/-! ## The ScatterGather interface of gopacket/reassembly -/

/-- What a `reassembly.ScatterGather` exposes to `ReassembledSG`: the direction and skip
count of `Info`, the available bytes (bytes kept from earlier deliveries followed by the
newly reassembled ones), and the offset recorded by `KeepFrom` (`-1` until it is called). -/
structure ScatterGather where
  Direction : TCPFlowDirection
  Skip : Int
  all : List Byte
  toKeep : Int
  deriving DecidableEq, Repr

/-- Go `sg.Lengths()`, first component: the number of available bytes. -/
def ScatterGather.Lengths (sg : ScatterGather) : Nat := sg.all.length

/-- Go `sg.Fetch(length)`: the first `length` available bytes. -/
def ScatterGather.Fetch (sg : ScatterGather) (length : Nat) : List Byte := sg.all.take length

/-- Go `sg.KeepFrom(offset)`: ask the reassembler to keep the bytes from `offset` on. -/
def ScatterGather.KeepFrom (sg : ScatterGather) (offset : Nat) : ScatterGather :=
  { sg with toKeep := offset }

/-! ## encoding/binary and encoding/base64 -/

/-- Go `binary.BigEndian.Uint16(b)` on a slice of at least two bytes. -/
def BigEndianUint16 (b : List Byte) : Nat :=
  match b with
  | b0 :: b1 :: _ => b0.val * 256 + b1.val
  | _ => 0

/-- The alphabet of `base64.StdEncoding`. -/
def encodeStd : List Char :=
  ['A', 'B', 'C', 'D', 'E', 'F', 'G', 'H', 'I', 'J', 'K', 'L', 'M',
   'N', 'O', 'P', 'Q', 'R', 'S', 'T', 'U', 'V', 'W', 'X', 'Y', 'Z',
   'a', 'b', 'c', 'd', 'e', 'f', 'g', 'h', 'i', 'j', 'k', 'l', 'm',
   'n', 'o', 'p', 'q', 'r', 's', 't', 'u', 'v', 'w', 'x', 'y', 'z',
   '0', '1', '2', '3', '4', '5', '6', '7', '8', '9', '+', '/']

/-- The encoder table lookup `enc.encode[v]` for a 6-bit value. -/
def encChar (v : Nat) : Char := encodeStd.getD v 'A'

/-- The decoder table lookup: the 6-bit value of an alphabet character. -/
def decChar (c : Char) : Option Nat :=
  let i := encodeStd.indexOf c
  if i < 64 then some i else none

/-- Padded standard base64 of a byte sequence, as a character list: every three bytes give
four characters, a final group of one or two bytes is padded with `=`. -/
def encodeChars : List Byte → List Char
  | a :: b :: c :: rest =>
      let v := a.val * 65536 + b.val * 256 + c.val
      encChar (v / 262144 % 64) :: encChar (v / 4096 % 64) :: encChar (v / 64 % 64)
        :: encChar (v % 64) :: encodeChars rest
  | [a, b] =>
      let v := a.val * 65536 + b.val * 256
      [encChar (v / 262144 % 64), encChar (v / 4096 % 64), encChar (v / 64 % 64), '=']
  | [a] =>
      let v := a.val * 65536
      [encChar (v / 262144 % 64), encChar (v / 4096 % 64), '=', '=']
  | [] => []

/-- Go `base64.StdEncoding.EncodeToString`. -/
def EncodeToString (src : List Byte) : String := String.mk (encodeChars src)

/-- The byte made of the low eight bits of a number. -/
def byteOf (n : Nat) : Byte := ⟨n % 256, Nat.mod_lt _ (by decide)⟩

/-- Decoding of padded standard base64 given as a character list, four characters at a
time; `none` on a character outside the alphabet or on malformed padding. -/
def decodeChars : List Char → Option (List Byte)
  | [] => some []
  | c0 :: c1 :: c2 :: c3 :: rest =>
      match decChar c0, decChar c1 with
      | some v0, some v1 =>
          if c2 = '=' ∧ c3 = '=' ∧ rest = [] then
            some [byteOf (v0 * 4 + v1 / 16)]
          else
            match decChar c2 with
            | none => none
            | some v2 =>
                if c3 = '=' ∧ rest = [] then
                  some [byteOf (v0 * 4 + v1 / 16), byteOf (v1 * 16 + v2 / 4)]
                else
                  match decChar c3, decodeChars rest with
                  | some v3, some tl =>
                      some (byteOf (v0 * 4 + v1 / 16) :: byteOf (v1 * 16 + v2 / 4)
                        :: byteOf (v2 * 64 + v3) :: tl)
                  | _, _ => none
      | _, _ => none
  | _ => none

/-- Go `base64.StdEncoding.DecodeString`, with `none` for a decoding error. -/
def DecodeString (s : String) : Option (List Byte) := decodeChars s.data

/-! ## tcpstream.go: the stream callbacks -/

/-- Accept is called when a TCP packet is received for a stream connection; the pair is
the returned boolean and the value stored in `*start`. -/
def TCPStream.Accept (_t : TCPStream) (tcp : TCP) : Bool × Bool :=
  if IsDDONServer (uint16 tcp.SrcPort.val) || IsDDONServer (uint16 tcp.DstPort.val) then
    (true, true)
  else
    (false, false)

/-- OutputSplitGamePacket logs the split packet into the connection log. -/
def TCPStream.OutputSplitGamePacket (t : TCPStream) (splitPacket : List Byte)
    (sg : ScatterGather) (ac : CustomReassemblerContext) : TCPStream :=
  let sgDir := sg.Direction
  let toServer := decide (sgDir = TCPFlowDirection.TCPDirClientToServer)
  let toServer := if t.isSideSwapped then !toServer else toServer
  let dir := if toServer then "C2S" else "S2C"
  let encodedData := EncodeToString splitPacket
  { t with connLog := { t.connLog with
      Packets := t.connLog.Packets ++
        [{ Timestamp := ac.GetCaptureInfo, Direction := dir, Data := encodedData }] } }

/-- ReassembledSG is called whenever the reassembler has enough data from tcp packets.
The result is the stream (whose connection log may have grown) and the scatter-gather
object with the `KeepFrom` request made, if any. -/
def TCPStream.ReassembledSG (t : TCPStream) (sg : ScatterGather)
    (ac : CustomReassemblerContext) : TCPStream × ScatterGather :=
  let skip := sg.Skip
  let length := sg.Lengths
  if skip ≠ -1 ∧ skip ≠ 0 then
    -- Missing bytes in stream: do not even try to parse it
    (t, sg)
  else
    let data := sg.Fetch length
    if t.isDDONConn then
      if data.length < 2 then
        -- Not enough to read header prefix length yet.
        (t, sg.KeepFrom 0)
      else
        let packetSize := BigEndianUint16 (data.take 2)
        let splitPacketLen := packetSize + 2
        if data.length < splitPacketLen then
          -- Not enough to read full packet yet.
          (t, sg.KeepFrom 0)
        else
          let splitPacket := data.take splitPacketLen
          let t1 := t.OutputSplitGamePacket splitPacket sg ac
          (t1, sg.KeepFrom splitPacketLen)
    else
      (t, sg)

/-! ## strconv and fmt -/

/-- Value of a decimal digit character. -/
def digitVal (c : Char) : Option Nat :=
  if 48 ≤ c.toNat ∧ c.toNat ≤ 57 then some (c.toNat - 48) else none

/-- Left-to-right accumulation of decimal digits; `none` on a non-digit. -/
def parseDigits : List Char → Nat → Option Nat
  | [], acc => some acc
  | c :: cs, acc =>
      match digitVal c with
      | some d => parseDigits cs (acc * 10 + d)
      | none => none

/-- Go `strconv.Atoi` with the error discarded (`dstPort, _ := strconv.Atoi(..)`): an
optional sign followed by decimal digits; a syntax error yields `0`.  Range errors do not
arise for the numerals the program parses. -/
def Atoi (s : String) : Int :=
  match s.data with
  | [] => 0
  | c :: cs =>
      if c = '-' then
        match cs with
        | [] => 0
        | _ => match parseDigits cs 0 with
          | some n => -(n : Int)
          | none => 0
      else if c = '+' then
        match cs with
        | [] => 0
        | _ => match parseDigits cs 0 with
          | some n => (n : Int)
          | none => 0
      else
        match parseDigits (c :: cs) 0 with
        | some n => (n : Int)
        | none => 0

/-- Go `Endpoint.String` of a TCP port endpoint: the port in decimal. -/
def portString (p : TCPPort) : String := toString p.val

/-! ## tcpstream.go: the stream factory -/

/-- New is called for each new TCP connection being created.  The result is the new stream
and the reassembly context with the connection log appended; in the program the stream and
the context hold the same `*ConnectionLog`. -/
def TCPStreamFactory.New (net : Flow String) (transport : Flow TCPPort) (tcp : TCP)
    (ac : CustomReassemblerContext) : TCPStream × CustomReassemblerContext :=
  let isSideSwapped :=
    !IsDDONServer (uint16 tcp.DstPort.val) && IsDDONServer (uint16 tcp.SrcPort.val)
  let usedNet := if !isSideSwapped then net else net.Reverse
  let usedTransport := if !isSideSwapped then transport else transport.Reverse
  -- Populate the inital information about this new connection.
  let dstString := usedNet.dst ++ ":" ++ portString usedTransport.dst
  let dstPort := Atoi (portString usedTransport.dst)
  let serverType :=
    if isLoginServer (uint16 dstPort) then "login"
    else if isWorldServer (uint16 dstPort) then "world"
    else ""
  let serverName :=
    match knownHostsGet dstString with
    | some v => v
    | none => ""
  let connLog : ConnectionLog :=
    { ConnectionIndex := 0
      Encrypted := true
      EncryptionKey := ""
      ServerType := serverType
      ServerName := serverName
      ServerIP := dstString
      LogStartTime := ac.GetCaptureInfo
      isDDONConn :=
        IsDDONServer (uint16 tcp.DstPort.val) || IsDDONServer (uint16 tcp.SrcPort.val)
      Packets := [] }
  let ctx := ac
  let connectionIndex := ctx.ConnectionLogs.length
  let connLog := { connLog with ConnectionIndex := connectionIndex }
  let ctx := { ctx with ConnectionLogs := ctx.ConnectionLogs ++ [connLog] }
  let stream : TCPStream :=
    { net := usedNet
      transport := usedTransport
      connLog := connLog
      isSideSwapped := isSideSwapped
      isDDONConn :=
        IsDDONServer (uint16 tcp.DstPort.val) || IsDDONServer (uint16 tcp.SrcPort.val) }
  (stream, ctx)

/-! ## The reassembler around one delivery -/

/-- One delivery of the reassembler to a stream: direction, skip count (`0` no gap, `-1`
unknown, positive for missing bytes), the newly reassembled bytes, and the capture
timestamp of the packet that triggered it. -/
structure Delivery where
  dir : TCPFlowDirection
  skip : Int
  bytes : List Byte
  ts : Time
  deriving DecidableEq, Repr

/-- The framer as one delivery sees it: the stream and the bytes the reassembler holds back
for the half-connection of that delivery's direction (`pending`). -/
structure Framer where
  stream : TCPStream
  pending : List Byte
  deriving DecidableEq, Repr

/-- The scatter-gather object the reassembler builds for a delivery (`Assembler.buildSG`):
the bytes kept from the previous call come first, the new bytes follow, and the `KeepFrom`
offset starts at `-1`, meaning no request. -/
def buildSG (pending : List Byte) (d : Delivery) : ScatterGather :=
  { Direction := d.dir, Skip := d.skip, all := pending ++ d.bytes, toKeep := -1 }

/-- What the reassembler holds back after `ReassembledSG` returned (`Assembler.cleanSG`):
the bytes from the `KeepFrom` offset on; with the offset still negative every page of the
delivery is released and nothing is held back.  This is why `ReassembledSG` calls
`sg.KeepFrom(0)` on the paths that wait for more data. -/
def cleanSG (sg : ScatterGather) : List Byte :=
  if sg.toKeep < 0 then [] else sg.all.drop sg.toKeep.toNat

/-- The framer step `onDelivery` on one half-connection: the reassembler builds the
scatter-gather object from the bytes kept for that half and the new bytes, calls
`ReassembledSG`, and keeps what was requested. -/
def onDelivery (f : Framer) (d : Delivery) : Framer :=
  let r := f.stream.ReassembledSG (buildSG f.pending d) { CaptureInfo := d.ts, ConnectionLogs := [] }
  { stream := r.1, pending := cleanSG r.2 }

/-! ## main.go: doParsePcap -/

/-- Go `tcp.TransportFlow()`: the flow from the source port to the destination port. -/
def TCP.TransportFlow (tcp : TCP) : Flow TCPPort := ⟨tcp.SrcPort, tcp.DstPort⟩

/-- A TCP packet of the capture as the packet loop hands it to the assembler: its network
flow, its TCP layer and its capture timestamp. -/
structure Packet where
  net : Flow String
  tcp : TCP
  ci : Time
  deriving DecidableEq, Repr

/-- The stream pool lookup of the assembler: a connection is known under its key or under
the reversed key. -/
def poolKnows (pool : List (Flow String × Flow TCPPort)) (k : Flow String × Flow TCPPort) :
    Bool :=
  pool.contains k || pool.contains (k.1.Reverse, k.2.Reverse)

/-- The packet loop of `doParsePcap` as far as stream creation goes: every TCP packet gets
a context of its own (`c := &CustomReassemblerContext{CaptureInfo: ..}`), the assembler
calls `TCPStreamFactory.New` with that context when the packet opens a flow the pool does
not know, and the context is appended to `outputContexts`. -/
def packetLoop : List (Flow String × Flow TCPPort) → List Packet →
    List CustomReassemblerContext
  | _, [] => []
  | pool, packet :: rest =>
      let c : CustomReassemblerContext := { CaptureInfo := packet.ci, ConnectionLogs := [] }
      let k := (packet.net, packet.tcp.TransportFlow)
      if poolKnows pool k then
        c :: packetLoop pool rest
      else
        (TCPStreamFactory.New k.1 k.2 packet.tcp c).2 :: packetLoop (k :: pool) rest

/-- The connection records of a capture pass, in creation order. -/
def createdRecords (packets : List Packet) : List ConnectionLog :=
  (packetLoop [] packets).flatMap (fun ctx => ctx.ConnectionLogs)

/-- One `ioutil.WriteFile` call of the output loop: the file name and the record that was
marshalled into it. -/
structure Artifact where
  outputFileName : String
  connLog : ConnectionLog
  deriving DecidableEq, Repr

/-- The inner loop `for _, connLog := range ctx.ConnectionLogs`.  `sprintf` stands for
`fmt.Sprintf(outNameTemplate, logCount, connLog.ServerType)` and `writeOk` tells whether
marshalling and writing the file succeed.  The state is `logCount` and the files written so
far; `Except.error` is the early `return err`, with the files written until then. -/
def writeConnLogs (sprintf : String → Nat → String → String)
    (writeOk : String → ConnectionLog → Bool) (outNameTemplate : String) :
    List ConnectionLog → Nat × List Artifact → Except (List Artifact) (Nat × List Artifact)
  | [], st => .ok st
  | connLog :: rest, (logCount, written) =>
      if connLog.Packets.length > 0 then
        let outputFileName := sprintf outNameTemplate logCount connLog.ServerType
        if writeOk outputFileName connLog then
          writeConnLogs sprintf writeOk outNameTemplate rest
            (logCount + 1, written ++ [⟨outputFileName, connLog⟩])
        else
          .error written
      else
        writeConnLogs sprintf writeOk outNameTemplate rest (logCount, written)

/-- The outer loop `for _, ctx := range outputContexts`. -/
def writeContexts (sprintf : String → Nat → String → String)
    (writeOk : String → ConnectionLog → Bool) (outNameTemplate : String) :
    List CustomReassemblerContext → Nat × List Artifact →
      Except (List Artifact) (Nat × List Artifact)
  | [], st => .ok st
  | ctx :: rest, st =>
      if ctx.ConnectionLogs.length > 0 then
        match writeConnLogs sprintf writeOk outNameTemplate ctx.ConnectionLogs st with
        | .ok st1 => writeContexts sprintf writeOk outNameTemplate rest st1
        | .error written => .error written
      else
        writeContexts sprintf writeOk outNameTemplate rest st

/-- The output phase of `doParsePcap`: `logCount := 0`, then the two loops. -/
def outputSplitPacketFiles (sprintf : String → Nat → String → String)
    (writeOk : String → ConnectionLog → Bool) (outNameTemplate : String)
    (outputContexts : List CustomReassemblerContext) :
    Except (List Artifact) (Nat × List Artifact) :=
  writeContexts sprintf writeOk outNameTemplate outputContexts (0, [])

/-! ## Sequences of deliveries -/

/-- A connection of the reassembler: the one `TCPStream` both directions report to, and
the bytes held back for each of its two half-connections (`c2s` for client-to-server
deliveries, `s2c` for server-to-client ones).  The halves do not share kept bytes. -/
structure Connection where
  stream : TCPStream
  c2s : List Byte
  s2c : List Byte
  deriving DecidableEq, Repr

/-- The bytes held back for the half-connection of a direction. -/
def Connection.saved (c : Connection) (dir : TCPFlowDirection) : List Byte :=
  match dir with
  | TCPFlowDirection.TCPDirClientToServer => c.c2s
  | TCPFlowDirection.TCPDirServerToClient => c.s2c

/-- One delivery to a connection (`Assembler.sendToConnection`): the framer step runs on the
half-connection of the delivery's direction; the bytes kept for the other half are not
touched. -/
def Connection.sendToConnection (c : Connection) (d : Delivery) : Connection :=
  let f := onDelivery ⟨c.stream, c.saved d.dir⟩ d
  match d.dir with
  | TCPFlowDirection.TCPDirClientToServer => { stream := f.stream, c2s := f.pending, s2c := c.s2c }
  | TCPFlowDirection.TCPDirServerToClient => { stream := f.stream, c2s := c.c2s, s2c := f.pending }

/-- The connection after a sequence of deliveries, taken in delivery order. -/
def deliverAll (c : Connection) : List Delivery → Connection
  | [] => c
  | d :: ds => deliverAll (c.sendToConnection d) ds

/-! ## ReassembledSG with Go's slice bounds made explicit -/

/-- Go slice expression `data[:n]`: the first `n` bytes; `none` stands for the run-time
panic raised when `n` exceeds the length. -/
def sliceTo (data : List Byte) (n : Nat) : Option (List Byte) :=
  if n ≤ data.length then some (data.take n) else none

/-- Go `binary.BigEndian.Uint16(b)` with its bounds check: `none` on fewer than two bytes. -/
def BigEndianUint16Checked (b : List Byte) : Option Nat :=
  match b with
  | b0 :: b1 :: _ => some (b0.val * 256 + b1.val)
  | _ => none

/-- Go `sg.KeepFrom(offset)` with the offset required to lie within the available bytes. -/
def ScatterGather.KeepFromChecked (sg : ScatterGather) (offset : Nat) : Option ScatterGather :=
  if offset ≤ sg.all.length then some (sg.KeepFrom offset) else none

/-- The body of `ReassembledSG` once more, with `data[:2]`, `Uint16`, `data[:splitPacketLen]`
and the `KeepFrom` offsets checked; `none` is an out-of-range panic. -/
def TCPStream.ReassembledSGChecked (t : TCPStream) (sg : ScatterGather)
    (ac : CustomReassemblerContext) : Option (TCPStream × ScatterGather) :=
  let skip := sg.Skip
  let length := sg.Lengths
  if skip ≠ -1 ∧ skip ≠ 0 then
    some (t, sg)
  else
    let data := sg.Fetch length
    if t.isDDONConn then
      if data.length < 2 then
        (sg.KeepFromChecked 0).map (fun sg1 => (t, sg1))
      else
        match (sliceTo data 2).bind BigEndianUint16Checked with
        | none => none
        | some packetSize =>
            let splitPacketLen := packetSize + 2
            if data.length < splitPacketLen then
              (sg.KeepFromChecked 0).map (fun sg1 => (t, sg1))
            else
              match sliceTo data splitPacketLen with
              | none => none
              | some splitPacket =>
                  let t1 := t.OutputSplitGamePacket splitPacket sg ac
                  (sg.KeepFromChecked splitPacketLen).map (fun sg1 => (t1, sg1))
    else
      some (t, sg)

/-! ## Concrete inputs used in the examples below -/

/-- A login connection seen from its first packet: client port 40000 to port 52100. -/
def loginStream : TCPStream :=
  (TCPStreamFactory.New ⟨"10.0.0.2", "106.185.74.101"⟩ ⟨40000, 52100⟩ ⟨40000, 52100⟩
    ⟨0, []⟩).1

/-- A login record holding one packet: the login stream after the delivery `00 02 AB CD`. -/
def loginRecord : ConnectionLog :=
  (onDelivery ⟨loginStream, []⟩
    ⟨TCPFlowDirection.TCPDirClientToServer, 0, [0x00, 0x02, 0xAB, 0xCD], 1⟩).stream.connLog

/-- Rendering of the template `<base>_%d_%s.json` that `main` passes to `doParsePcap`. -/
def nameOf (base : String) (logCount : Nat) (serverType : String) : String :=
  base ++ "_" ++ toString logCount ++ "_" ++ serverType ++ ".json"

/-! ## Auxiliary facts -/

theorem bigEndian_take (buf : List Byte) (h : 2 ≤ buf.length) :
    BigEndianUint16 (buf.take 2) = (buf.getD 0 0).val * 256 + (buf.getD 1 0).val := by
  match buf, h with
  | b0 :: b1 :: rest, _ => simp [BigEndianUint16]

theorem cleanSG_KeepFrom (sg : ScatterGather) (k : Nat) :
    cleanSG (sg.KeepFrom k) = sg.all.drop k := by
  have h : ¬ ((k : Int) < 0) := by omega
  simp [cleanSG, ScatterGather.KeepFrom, h]

/-- Closed form of a usable step on a tracked connection. -/
theorem onDelivery_usable (t : TCPStream) (pending : List Byte) (d : Delivery)
    (husable : d.skip = 0 ∨ d.skip = -1) (htracked : t.isDDONConn = true) :
    onDelivery ⟨t, pending⟩ d =
      if (pending ++ d.bytes).length < 2 then ⟨t, pending ++ d.bytes⟩
      else if (pending ++ d.bytes).length
          < BigEndianUint16 ((pending ++ d.bytes).take 2) + 2 then
        ⟨t, pending ++ d.bytes⟩
      else
        ⟨t.OutputSplitGamePacket
            ((pending ++ d.bytes).take (BigEndianUint16 ((pending ++ d.bytes).take 2) + 2))
            (buildSG pending d) ⟨d.ts, []⟩,
          (pending ++ d.bytes).drop (BigEndianUint16 ((pending ++ d.bytes).take 2) + 2)⟩ := by
  have hskip : ¬ (d.skip ≠ -1 ∧ d.skip ≠ 0) := by
    rcases husable with h | h <;> simp [h]
  have hs : (buildSG pending d).Skip = d.skip := rfl
  have ha : (buildSG pending d).all = pending ++ d.bytes := rfl
  simp only [onDelivery, TCPStream.ReassembledSG, hs, hskip, if_false, htracked, if_true,
    ScatterGather.Fetch, ScatterGather.Lengths, ha, List.take_length]
  split_ifs <;> simp only [cleanSG_KeepFrom, ha, List.drop_zero]

/-- The packet list after `OutputSplitGamePacket`: one record appended at the end. -/
theorem packets_output (t : TCPStream) (m : List Byte) (sg : ScatterGather)
    (ac : CustomReassemblerContext) :
    (t.OutputSplitGamePacket m sg ac).connLog.Packets = t.connLog.Packets ++
      [⟨ac.CaptureInfo,
        if xor (decide (sg.Direction = TCPFlowDirection.TCPDirClientToServer)) t.isSideSwapped
          then "C2S" else "S2C",
        EncodeToString m⟩] := by
  simp only [TCPStream.OutputSplitGamePacket, CustomReassemblerContext.GetCaptureInfo]
  cases t.isSideSwapped <;>
    cases decide (sg.Direction = TCPFlowDirection.TCPDirClientToServer) <;> simp

/-- A step with a skip count other than `0` and `-1` changes nothing and keeps nothing. -/
theorem onDelivery_gap (f : Framer) (d : Delivery) (h1 : d.skip ≠ -1) (h0 : d.skip ≠ 0) :
    f.stream.ReassembledSG (buildSG f.pending d) ⟨d.ts, []⟩ = (f.stream, buildSG f.pending d)
      ∧ onDelivery f d = ⟨f.stream, []⟩ := by
  have hs : (buildSG f.pending d).Skip = d.skip := rfl
  have hr : f.stream.ReassembledSG (buildSG f.pending d) ⟨d.ts, []⟩
      = (f.stream, buildSG f.pending d) := by
    simp only [TCPStream.ReassembledSG, hs]
    rw [if_pos ⟨h1, h0⟩]
  refine ⟨hr, ?_⟩
  simp only [onDelivery, hr]
  rfl

/-- A step on an untracked stream changes nothing and keeps nothing. -/
theorem onDelivery_untracked (f : Framer) (d : Delivery) (h : f.stream.isDDONConn = false) :
    onDelivery f d = ⟨f.stream, []⟩ := by
  have hr : f.stream.ReassembledSG (buildSG f.pending d) ⟨d.ts, []⟩
      = (f.stream, buildSG f.pending d) := by
    simp only [TCPStream.ReassembledSG, h, Bool.false_eq_true, if_false, ite_self]
  simp only [onDelivery, hr]
  rfl

theorem digitVal_digitChar (k : Nat) (h : k < 10) : digitVal (Nat.digitChar k) = some k := by
  interval_cases k <;> decide

theorem parseDigits_append (l1 l2 : List Char) (acc : Nat) :
    parseDigits (l1 ++ l2) acc = (parseDigits l1 acc).bind (parseDigits l2) := by
  induction l1 generalizing acc with
  | nil => simp [parseDigits]
  | cons c cs ih =>
      simp only [List.cons_append, parseDigits]
      cases digitVal c with
      | none => simp
      | some v => simp [ih]

theorem toDigitsCore_acc (f n : Nat) (ds : List Char) :
    Nat.toDigitsCore 10 f n ds = Nat.toDigitsCore 10 f n [] ++ ds := by
  induction f generalizing n ds with
  | zero => simp [Nat.toDigitsCore]
  | succ f ih =>
      simp only [Nat.toDigitsCore]
      split_ifs
      · simp
      · rw [ih (n / 10) (_ :: ds), ih (n / 10) [_]]
        simp

theorem parseDigits_toDigitsCore (f n : Nat) (h : n < f) :
    parseDigits (Nat.toDigitsCore 10 f n []) 0 = some n := by
  induction f generalizing n with
  | zero => omega
  | succ f ih =>
      simp only [Nat.toDigitsCore]
      have hd := digitVal_digitChar (n % 10) (Nat.mod_lt _ (by decide))
      split_ifs with h0
      · have : n % 10 = n := by omega
        rw [this] at hd ⊢
        simp [parseDigits, hd]
      · rw [toDigitsCore_acc, parseDigits_append, ih (n / 10) (by omega)]
        simp only [Option.some_bind, parseDigits, hd]
        congr 1
        omega

theorem parseDigits_repr (n : Nat) : parseDigits (toString n).data 0 = some n :=
  parseDigits_toDigitsCore (n + 1) n (Nat.lt_succ_self n)

/-- Parsing the decimal rendering of a number gives the number back. -/
theorem Atoi_toString (n : Nat) : Atoi (toString n) = (n : Int) := by
  have h := parseDigits_repr n
  unfold Atoi
  match hd : (toString n).data with
  | [] =>
      rw [hd] at h
      simp only [parseDigits, Option.some.injEq] at h
      subst h
      exact absurd hd (by decide)
  | c :: cs =>
      rw [hd] at h
      have hc : digitVal c ≠ none := by
        intro hn
        simp [parseDigits, hn] at h
      have h1 : c ≠ '-' := by
        rintro rfl
        exact hc (by decide)
      have h2 : c ≠ '+' := by
        rintro rfl
        exact hc (by decide)
      simp only [h1, h2, if_false, h]

theorem uint16_Atoi_portString (p : TCPPort) : uint16 (Atoi (portString p)) = p.val := by
  have hp : p.val < 65536 := p.isLt
  simp only [portString, Atoi_toString, uint16]
  omega

theorem uint16_port (p : TCPPort) : uint16 (p.val : Int) = p.val := by
  have hp : p.val < 65536 := p.isLt
  simp only [uint16]
  omega

/-! ## The claims -/

/-- C1: on a usable delivery (skip `0` or `-1`) of a tracked connection, with
`buf = pending ++ bytes` and `L` the big-endian value of its first two bytes: when
`buf` has fewer than 2 or fewer than `L + 2` bytes, the stream (and so its message list)
is unchanged and the new pending is `buf`; otherwise exactly one message is appended,
made of the first `L + 2` bytes of `buf`, and the new pending is `buf` without them. -/
theorem C1_framer_step (t : TCPStream) (pending : List Byte) (d : Delivery)
    (husable : d.skip = 0 ∨ d.skip = -1) (htracked : t.isDDONConn = true) :
    let buf := pending ++ d.bytes
    let L := (buf.getD 0 0).val * 256 + (buf.getD 1 0).val
    let f := onDelivery ⟨t, pending⟩ d
    ((buf.length < 2 ∨ buf.length < L + 2) →
        f.stream = t ∧ f.pending = buf) ∧
    (¬ (buf.length < 2 ∨ buf.length < L + 2) →
        (∃ dir, f.stream.connLog.Packets = t.connLog.Packets ++
            [⟨d.ts, dir, EncodeToString (buf.take (L + 2))⟩])
        ∧ f.pending = buf.drop (L + 2)) := by
  intro buf L f
  have hf := onDelivery_usable t pending d husable htracked
  by_cases h2 : buf.length < 2
  · have : f = ⟨t, buf⟩ := by simp only [f, hf, buf]; rw [if_pos h2]
    simp [this, h2]
  · have hL : BigEndianUint16 (buf.take 2) = L := bigEndian_take buf (by omega)
    by_cases h3 : buf.length < L + 2
    · have : f = ⟨t, buf⟩ := by
        simp only [f, hf]; rw [if_neg h2, hL, if_pos h3]
      simp [this, h3]
    · have : f = ⟨t.OutputSplitGamePacket (buf.take (L + 2)) (buildSG pending d) ⟨d.ts, []⟩,
          buf.drop (L + 2)⟩ := by
        simp only [f, hf]; rw [if_neg h2, hL, if_neg h3]
      refine ⟨fun h => absurd h (by simp [h2, h3]), fun _ => ?_⟩
      rw [this]
      exact ⟨⟨_, packets_output _ _ _ _⟩, rfl⟩

/-- C1 at a concrete input: pending `00`, delivered bytes `01 AA BB` on the login stream. -/
theorem C1_framer_step_witness :
    ((0 : Int) = 0 ∨ (0 : Int) = -1) ∧ loginStream.isDDONConn = true ∧
    (∃ dir, (onDelivery ⟨loginStream, [0]⟩
        ⟨TCPFlowDirection.TCPDirClientToServer, 0, [1, 0xAA, 0xBB], 7⟩).stream.connLog.Packets
        = loginStream.connLog.Packets ++ [⟨7, dir, EncodeToString [0, 1, 0xAA]⟩])
    ∧ (onDelivery ⟨loginStream, [0]⟩
        ⟨TCPFlowDirection.TCPDirClientToServer, 0, [1, 0xAA, 0xBB], 7⟩).pending = [0xBB] :=
  ⟨Or.inl rfl, by decide,
    ((C1_framer_step loginStream [0]
      ⟨TCPFlowDirection.TCPDirClientToServer, 0, [1, 0xAA, 0xBB], 7⟩
      (Or.inl rfl) (by decide)).2 (by decide))⟩


/-- C2 (as stated) fails: a delivery with 5 missing bytes to a framer holding the pending
byte `01` does not leave pending as it was. -/
theorem C2_gap_pending_not_kept :
    (0 : Int) < (⟨TCPFlowDirection.TCPDirClientToServer, 5, [2], 1⟩ : Delivery).skip ∧
    (onDelivery ⟨loginStream, [1]⟩
      ⟨TCPFlowDirection.TCPDirClientToServer, 5, [2], 1⟩).pending ≠ [1] := by
  decide

/-- C2 (amended): on a delivery with a positive gap count `ReassembledSG` returns at once:
the stream, and so the message list, is unchanged and no `KeepFrom` request is made, hence
the reassembler holds nothing back and pending is empty afterwards. -/
theorem C2_gap_delivery (f : Framer) (d : Delivery) (hgap : 0 < d.skip) :
    f.stream.ReassembledSG (buildSG f.pending d) ⟨d.ts, []⟩ = (f.stream, buildSG f.pending d)
    ∧ (onDelivery f d).stream = f.stream
    ∧ (onDelivery f d).stream.connLog.Packets = f.stream.connLog.Packets
    ∧ (onDelivery f d).pending = [] := by
  have h := onDelivery_gap f d (by omega) (by omega)
  refine ⟨h.1, ?_, ?_, ?_⟩ <;> rw [h.2]

/-- C2 (amended) at a concrete input: pending `01`, a delivery with 5 missing bytes. -/
theorem C2_gap_delivery_witness :
    (0 : Int) < 5 ∧
    (onDelivery ⟨loginStream, [1]⟩
      ⟨TCPFlowDirection.TCPDirClientToServer, 5, [2], 1⟩).stream = loginStream ∧
    (onDelivery ⟨loginStream, [1]⟩
      ⟨TCPFlowDirection.TCPDirClientToServer, 5, [2], 1⟩).pending = [] :=
  ⟨by decide,
    (C2_gap_delivery ⟨loginStream, [1]⟩ ⟨TCPFlowDirection.TCPDirClientToServer, 5, [2], 1⟩
      (by decide)).2.1,
    (C2_gap_delivery ⟨loginStream, [1]⟩ ⟨TCPFlowDirection.TCPDirClientToServer, 5, [2], 1⟩
      (by decide)).2.2.2⟩

/-- C3 (as stated) fails: on the login stream the delivery `00 02 AB CD` stores one packet
whose Data is the base64 text of all four bytes, length prefix included; it does not decode
to the two bytes `AB CD`. -/
theorem C3_data_keeps_length_prefix :
    (onDelivery ⟨loginStream, []⟩
      ⟨TCPFlowDirection.TCPDirClientToServer, 0, [0x00, 0x02, 0xAB, 0xCD], 1⟩).stream.connLog.Packets
      = [⟨1, "C2S", "AAKrzQ=="⟩]
    ∧ DecodeString "AAKrzQ==" = some [0x00, 0x02, 0xAB, 0xCD]
    ∧ DecodeString "AAKrzQ==" ≠ some [0xAB, 0xCD] := by
  decide


theorem IsDDONServer_iff (n : Nat) : IsDDONServer n = true ↔ (n = 52000 ∨ n = 52100) := by
  simp only [IsDDONServer, isLoginServer, isWorldServer, Bool.or_eq_true, beq_iff_eq]
  omega

/-- Closed form of `TCPStreamFactory.New` with the conversions resolved. -/
theorem New_eq (net : Flow String) (transport : Flow TCPPort) (tcp : TCP)
    (ac : CustomReassemblerContext) :
    TCPStreamFactory.New net transport tcp ac =
      let sw := !IsDDONServer tcp.DstPort.val && IsDDONServer tcp.SrcPort.val
      let usedNet := if sw then net.Reverse else net
      let usedTransport := if sw then transport.Reverse else transport
      let connLog : ConnectionLog :=
        { ConnectionIndex := ac.ConnectionLogs.length
          Encrypted := true
          EncryptionKey := ""
          LogStartTime := ac.CaptureInfo
          ServerType :=
            if usedTransport.dst.val = 52100 then "login"
            else if usedTransport.dst.val = 52000 then "world" else ""
          ServerName := (knownHostsGet (usedNet.dst ++ ":" ++ toString usedTransport.dst.val)).getD ""
          ServerIP := usedNet.dst ++ ":" ++ toString usedTransport.dst.val
          isDDONConn := IsDDONServer tcp.DstPort.val || IsDDONServer tcp.SrcPort.val
          Packets := [] }
      (⟨usedNet, usedTransport, connLog, sw,
          IsDDONServer tcp.DstPort.val || IsDDONServer tcp.SrcPort.val⟩,
        ⟨ac.CaptureInfo, ac.ConnectionLogs ++ [connLog]⟩) := by
  have hm : ∀ o : Option String, (match o with | some v => v | none => "") = o.getD "" := by
    intro o; cases o <;> rfl
  simp only [TCPStreamFactory.New, uint16_port, uint16_Atoi_portString,
    CustomReassemblerContext.GetCaptureInfo, isLoginServer, isWorldServer, beq_iff_eq, hm]
  cases hsw : (!IsDDONServer tcp.DstPort.val && IsDDONServer tcp.SrcPort.val) <;>
    simp [portString]


theorem output_isDDONConn (t : TCPStream) (m : List Byte) (sg : ScatterGather)
    (ac : CustomReassemblerContext) :
    (t.OutputSplitGamePacket m sg ac).isDDONConn = t.isDDONConn := rfl

/-- Every step either leaves the stream as it is or performs one `OutputSplitGamePacket`. -/
theorem onDelivery_stream (f : Framer) (d : Delivery) :
    (onDelivery f d).stream = f.stream ∨
    ∃ m, (onDelivery f d).stream
      = f.stream.OutputSplitGamePacket m (buildSG f.pending d) ⟨d.ts, []⟩ := by
  by_cases hu : d.skip = 0 ∨ d.skip = -1
  · cases ht : f.stream.isDDONConn with
    | false => left; rw [onDelivery_untracked f d ht]
    | true =>
        have h := onDelivery_usable f.stream f.pending d hu ht
        have hf : (⟨f.stream, f.pending⟩ : Framer) = f := rfl
        rw [hf] at h
        rw [h]
        split_ifs
        · left; rfl
        · left; rfl
        · right; exact ⟨_, rfl⟩
  · left
    rw [(onDelivery_gap f d (fun h => hu (Or.inr h)) (fun h => hu (Or.inl h))).2]

/-- C3 (amended): for a new flow from any source port to destination port 52100 whose first
no-gap client-to-server delivery carries `00 02 AB CD`, the connection record has ServerType
"login" and exactly one packet, with Direction "C2S" and a Data field that base64-decodes
to the whole frame `00 02 AB CD`, length prefix included. -/
theorem C3_end_to_end (net : Flow String) (src : TCPPort) (ac : CustomReassemblerContext)
    (ts : Time) :
    let tcp : TCP := ⟨src, 52100⟩
    let s := (TCPStreamFactory.New net tcp.TransportFlow tcp ac).1
    let f := onDelivery ⟨s, []⟩
      ⟨TCPFlowDirection.TCPDirClientToServer, 0, [0x00, 0x02, 0xAB, 0xCD], ts⟩
    f.stream.connLog.ServerType = "login" ∧
    ∃ p, f.stream.connLog.Packets = [p] ∧ p.Timestamp = ts ∧ p.Direction = "C2S" ∧
      DecodeString p.Data = some [0x00, 0x02, 0xAB, 0xCD] := by
  intro tcp s f
  have hv : (52100 : TCPPort).val = 52100 := rfl
  have hd : IsDDONServer 52100 = true := by decide
  have hsw : s.isSideSwapped = false := by
    simp only [s, New_eq, tcp, hv, hd]; rfl
  have htr : s.isDDONConn = true := by
    simp only [s, New_eq, tcp, hv, hd]; rfl
  have hty : s.connLog.ServerType = "login" := by
    simp only [s, New_eq, tcp, TCP.TransportFlow, hv, hd]
    rfl
  have hpk : s.connLog.Packets = [] := by
    simp only [s, New_eq]
  have hf : f = ⟨s.OutputSplitGamePacket [0x00, 0x02, 0xAB, 0xCD]
      (buildSG [] ⟨TCPFlowDirection.TCPDirClientToServer, 0, [0x00, 0x02, 0xAB, 0xCD], ts⟩)
      ⟨ts, []⟩, []⟩ := by
    simp only [f]
    rw [onDelivery_usable s [] _ (Or.inl rfl) htr]
    rfl
  have hst : f.stream.connLog.ServerType = "login" := by rw [hf]; exact hty
  have hdec : DecodeString "AAKrzQ==" = some [0x00, 0x02, 0xAB, 0xCD] := by decide
  refine ⟨hst, ⟨ts, "C2S", "AAKrzQ=="⟩, ?_, rfl, rfl, hdec⟩
  rw [hf]
  simp only [packets_output, hpk, hsw, buildSG]
  have : EncodeToString [0x00, 0x02, 0xAB, 0xCD] = "AAKrzQ==" := by decide
  rw [this]
  rfl


/-- C4 (as stated) fails: a new flow between the untracked ports 4000 and 80 still gets a
connection record appended to the registry of its context. -/
theorem C4_untracked_flow_is_recorded :
    IsDDONServer (4000 : TCPPort).val = false ∧ IsDDONServer (80 : TCPPort).val = false ∧
    (TCPStreamFactory.New ⟨"10.0.0.2", "10.0.0.9"⟩ ⟨4000, 80⟩ ⟨4000, 80⟩
        ⟨0, []⟩).2.ConnectionLogs
      ≠ (⟨0, []⟩ : CustomReassemblerContext).ConnectionLogs := by
  decide

/-- C4 (amended): for a new flow whose first packet has neither port in {52000, 52100},
`New` yields an untracked stream (`isDDONConn` false, `Accept` rejects the packet) and
appends exactly one record to the registry: the stream's record, with `isDDONConn` false,
empty ServerType and no packets; no delivery ever adds a packet to it. -/
theorem C4_untracked_flow (net : Flow String) (tcp : TCP) (ac : CustomReassemblerContext)
    (hsrc : tcp.SrcPort.val ≠ 52000 ∧ tcp.SrcPort.val ≠ 52100)
    (hdst : tcp.DstPort.val ≠ 52000 ∧ tcp.DstPort.val ≠ 52100) :
    let r := TCPStreamFactory.New net tcp.TransportFlow tcp ac
    r.1.isDDONConn = false ∧ r.1.Accept tcp = (false, false) ∧
    r.2.ConnectionLogs = ac.ConnectionLogs ++ [r.1.connLog] ∧
    r.1.connLog.isDDONConn = false ∧ r.1.connLog.ServerType = "" ∧
    r.1.connLog.Packets = [] ∧
    ∀ (pending : List Byte) (d : Delivery), (onDelivery ⟨r.1, pending⟩ d).stream = r.1 := by
  intro r
  have hs : IsDDONServer tcp.SrcPort.val = false := by
    rw [← Bool.not_eq_true, IsDDONServer_iff]; omega
  have hd : IsDDONServer tcp.DstPort.val = false := by
    rw [← Bool.not_eq_true, IsDDONServer_iff]; omega
  have htr : r.1.isDDONConn = false := by
    simp only [r, New_eq, hs, hd]; rfl
  refine ⟨htr, ?_, ?_, ?_, ?_, ?_, ?_⟩
  · simp [TCPStream.Accept, uint16_port, hs, hd]
  · simp only [r, New_eq]
  · simp only [r, New_eq, hs, hd]; rfl
  · simp only [r, New_eq, hs, hd, TCP.TransportFlow]
    simp [hdst.1, hdst.2]
  · simp only [r, New_eq]
  · intro pending d
    rw [onDelivery_untracked ⟨r.1, pending⟩ d htr]

/-- C4 (amended) at a concrete input: ports 4000 and 80, empty registry. -/
theorem C4_untracked_flow_witness :
    ((4000 : TCPPort).val ≠ 52000 ∧ (4000 : TCPPort).val ≠ 52100) ∧
    ((80 : TCPPort).val ≠ 52000 ∧ (80 : TCPPort).val ≠ 52100) ∧
    (TCPStreamFactory.New ⟨"10.0.0.2", "10.0.0.9"⟩ (TCP.TransportFlow ⟨4000, 80⟩) ⟨4000, 80⟩
        ⟨0, []⟩).1.isDDONConn = false ∧
    (TCPStreamFactory.New ⟨"10.0.0.2", "10.0.0.9"⟩ (TCP.TransportFlow ⟨4000, 80⟩) ⟨4000, 80⟩
        ⟨0, []⟩).2.ConnectionLogs
      = [] ++ [(TCPStreamFactory.New ⟨"10.0.0.2", "10.0.0.9"⟩ (TCP.TransportFlow ⟨4000, 80⟩)
          ⟨4000, 80⟩ ⟨0, []⟩).1.connLog] :=
  ⟨by decide, by decide,
    (C4_untracked_flow ⟨"10.0.0.2", "10.0.0.9"⟩ ⟨4000, 80⟩ ⟨0, []⟩ (by decide) (by decide)).1,
    (C4_untracked_flow ⟨"10.0.0.2", "10.0.0.9"⟩ ⟨4000, 80⟩ ⟨0, []⟩ (by decide)
      (by decide)).2.2.1⟩

/-- C5: the swap flag computed by `New` is true exactly when the first packet's destination
port is not a service port (52000 or 52100) and its source port is one; in particular it is
false whenever the destination port is a service port, and true whenever the source port is
a service port and the destination port is not. -/
theorem C5_swap_detection (net : Flow String) (transport : Flow TCPPort) (tcp : TCP)
    (ac : CustomReassemblerContext) :
    let sw := (TCPStreamFactory.New net transport tcp ac).1.isSideSwapped
    let trackedDst := tcp.DstPort.val = 52000 ∨ tcp.DstPort.val = 52100
    let trackedSrc := tcp.SrcPort.val = 52000 ∨ tcp.SrcPort.val = 52100
    (sw = true ↔ (¬ trackedDst ∧ trackedSrc)) ∧
    (trackedDst → sw = false) ∧
    (trackedSrc ∧ ¬ trackedDst → sw = true) := by
  intro sw trackedDst trackedSrc
  have h : sw = true ↔ (¬ trackedDst ∧ trackedSrc) := by
    simp only [sw, New_eq, Bool.and_eq_true, Bool.not_eq_true', trackedDst, trackedSrc,
      ← IsDDONServer_iff, Bool.not_eq_true]
  refine ⟨h, fun hd => ?_, fun hsd => h.2 ⟨hsd.2, hsd.1⟩⟩
  cases hsw : sw with
  | false => rfl
  | true => exact absurd hd (h.1 hsw).1

/-- C6: with the normalized destination being the observed destination endpoint when the
swap flag is false and the observed source endpoint when it is true, the record made by
`New` has ServerType "login" for port 52100, "world" for port 52000 and "" otherwise,
ServerIP `address:port` of the normalized destination, and ServerName the `knownHosts`
label of that string, or "" when there is none. -/
theorem C6_metadata (net : Flow String) (transport : Flow TCPPort) (tcp : TCP)
    (ac : CustomReassemblerContext) :
    let s := (TCPStreamFactory.New net transport tcp ac).1
    let dstAddr := if s.isSideSwapped then net.src else net.dst
    let dstPort := if s.isSideSwapped then transport.src else transport.dst
    s.connLog.ServerType
        = (if dstPort.val = 52100 then "login" else if dstPort.val = 52000 then "world" else "")
    ∧ s.connLog.ServerIP = dstAddr ++ ":" ++ toString dstPort.val
    ∧ s.connLog.ServerName = (knownHosts.lookup s.connLog.ServerIP).getD "" := by
  intro s dstAddr dstPort
  simp only [s, dstAddr, dstPort, New_eq, knownHostsGet]
  cases (!IsDDONServer tcp.DstPort.val && IsDDONServer tcp.SrcPort.val) <;>
    simp [Flow.Reverse]


/-- C8: `OutputSplitGamePacket` appends one packet whose direction is "C2S" exactly when
either the delivery is client-to-server or the swap flag is set, but not both, and "S2C"
otherwise; no other direction string is stored. -/
theorem C8_direction (t : TCPStream) (m : List Byte) (sg : ScatterGather)
    (ac : CustomReassemblerContext) :
    ∃ p, (t.OutputSplitGamePacket m sg ac).connLog.Packets = t.connLog.Packets ++ [p]
      ∧ (p.Direction = "C2S" ↔
          Xor' (sg.Direction = TCPFlowDirection.TCPDirClientToServer) (t.isSideSwapped = true))
      ∧ (p.Direction = "S2C" ↔
          ¬ Xor' (sg.Direction = TCPFlowDirection.TCPDirClientToServer)
            (t.isSideSwapped = true))
      ∧ (p.Direction = "C2S" ∨ p.Direction = "S2C") := by
  refine ⟨_, packets_output t m sg ac, ?_⟩
  have hne : ("S2C" : String) ≠ "C2S" := by decide
  cases hsw : t.isSideSwapped <;> cases hd : sg.Direction <;>
    simp [Xor', hne, hne.symm]


/-- A context that passed through the packet loop holds at most the one record made for
the flow its packet opened, and that record has index 0. -/
theorem packetLoop_index_zero (packets : List Packet)
    (pool : List (Flow String × Flow TCPPort)) :
    ∀ ctx ∈ packetLoop pool packets, ∀ r ∈ ctx.ConnectionLogs, r.ConnectionIndex = 0 := by
  induction packets generalizing pool with
  | nil => intro ctx h; simp [packetLoop] at h
  | cons p rest ih =>
      intro ctx h r hr
      simp only [packetLoop] at h
      split_ifs at h
      · rcases List.mem_cons.1 h with h | h
        · subst h; simp at hr
        · exact ih _ ctx h r hr
      · rcases List.mem_cons.1 h with h | h
        · subst h
          simp only [New_eq, List.nil_append, List.mem_singleton] at hr
          subst hr
          rfl
        · exact ih _ ctx h r hr

theorem createdRecords_index_zero (packets : List Packet) :
    ∀ r ∈ createdRecords packets, r.ConnectionIndex = 0 := by
  intro r hr
  simp only [createdRecords, List.mem_flatMap] at hr
  obtain ⟨ctx, hc, hrc⟩ := hr
  exact packetLoop_index_zero packets [] ctx hc r hrc

/-- C9 on the code: two packets that open two different flows (a login and a world
connection) create two records, and both get ConnectionIndex 0, not 0 and 1. -/
theorem C9_indices_not_sequential :
    (createdRecords
      [⟨⟨"10.0.0.2", "106.185.74.101"⟩, ⟨40000, 52100⟩, 1⟩,
       ⟨⟨"10.0.0.2", "106.185.74.173"⟩, ⟨40001, 52000⟩, 2⟩]).map
        (fun r => (r.ServerType, r.ConnectionIndex))
      = [("login", 0), ("world", 0)] := by
  decide

theorem writeConnLogs_ok (sprintf : String → Nat → String → String)
    (writeOk : String → ConnectionLog → Bool) (tmpl : String)
    (hio : ∀ name log, writeOk name log = true) (logs : List ConnectionLog) (k : Nat)
    (written : List Artifact) :
    writeConnLogs sprintf writeOk tmpl logs (k, written) =
      .ok (k + (logs.filter (fun r => r.Packets.length > 0)).length,
        written ++ ((logs.filter (fun r => r.Packets.length > 0)).enumFrom k).map
          (fun ir => ⟨sprintf tmpl ir.1 ir.2.ServerType, ir.2⟩)) := by
  induction logs generalizing k written with
  | nil => simp [writeConnLogs]
  | cons r rest ih =>
      simp only [writeConnLogs, hio, if_true]
      by_cases hp : r.Packets.length > 0
      · rw [if_pos hp, ih]
        simp [List.filter_cons, hp, List.enumFrom_cons]
        omega
      · rw [if_neg hp, ih]
        simp [List.filter_cons, hp]

theorem writeContexts_ok (sprintf : String → Nat → String → String)
    (writeOk : String → ConnectionLog → Bool) (tmpl : String)
    (hio : ∀ name log, writeOk name log = true) (ctxs : List CustomReassemblerContext)
    (k : Nat) (written : List Artifact) :
    writeContexts sprintf writeOk tmpl ctxs (k, written) =
      .ok (k + ((ctxs.flatMap (fun c => c.ConnectionLogs)).filter
            (fun r => r.Packets.length > 0)).length,
        written ++ (((ctxs.flatMap (fun c => c.ConnectionLogs)).filter
            (fun r => r.Packets.length > 0)).enumFrom k).map
          (fun ir => ⟨sprintf tmpl ir.1 ir.2.ServerType, ir.2⟩)) := by
  induction ctxs generalizing k written with
  | nil => simp [writeContexts]
  | cons c rest ih =>
      simp only [writeContexts]
      by_cases hc : c.ConnectionLogs.length > 0
      · rw [if_pos hc, writeConnLogs_ok sprintf writeOk tmpl hio]
        simp only [ih, List.flatMap_cons, List.filter_append, List.length_append,
          List.enumFrom_append, List.map_append, List.append_assoc, Nat.add_assoc]
      · rw [if_neg hc, ih]
        have : c.ConnectionLogs = [] := by
          cases h : c.ConnectionLogs with
          | nil => rfl
          | cons a b => simp [h] at hc
        simp [List.flatMap_cons, this]

/-- C10: when every file write succeeds, the output loop of `doParsePcap` writes exactly
the collected records that have at least one packet, in collection order; the `k`-th file
written (from 0) is named from counter `k` and the record's own ServerType, and the final
counter is the number of files written.  Records without packets write nothing and do not
advance the counter. -/
theorem C10_artifacts (sprintf : String → Nat → String → String)
    (writeOk : String → ConnectionLog → Bool) (outNameTemplate : String)
    (outputContexts : List CustomReassemblerContext)
    (hio : ∀ name log, writeOk name log = true) :
    outputSplitPacketFiles sprintf writeOk outNameTemplate outputContexts =
      .ok (((outputContexts.flatMap (fun c => c.ConnectionLogs)).filter
            (fun r => r.Packets.length > 0)).length,
        (((outputContexts.flatMap (fun c => c.ConnectionLogs)).filter
            (fun r => r.Packets.length > 0)).enum).map
          (fun kr => ⟨sprintf outNameTemplate kr.1 kr.2.ServerType, kr.2⟩)) := by
  simp [outputSplitPacketFiles, writeContexts_ok sprintf writeOk outNameTemplate hio,
    List.enum]

/-- C10 at a concrete input: four contexts, holding a record without packets, nothing, and
twice a login record with one packet; two files are written, numbered 0 and 1. -/
theorem C10_artifacts_witness :
    (∀ (name : String) (log : ConnectionLog), (fun _ _ => true) name log = true) ∧
    outputSplitPacketFiles nameOf (fun _ _ => true) "cap"
        [⟨0, [loginStream.connLog]⟩, ⟨1, []⟩, ⟨2, [loginRecord]⟩, ⟨3, [loginRecord]⟩]
      = .ok (2, [⟨"cap_0_login.json", loginRecord⟩, ⟨"cap_1_login.json", loginRecord⟩]) :=
  ⟨fun _ _ => rfl,
    (C10_artifacts nameOf (fun _ _ => true) "cap"
      [⟨0, [loginStream.connLog]⟩, ⟨1, []⟩, ⟨2, [loginRecord]⟩, ⟨3, [loginRecord]⟩]
      (fun _ _ => rfl)).trans (congrArg Except.ok (by decide))⟩


theorem decChar_encChar_fin :
    ∀ v : Fin 64, decChar (encChar v.val) = some v.val ∧ encChar v.val ≠ '=' := by
  decide

theorem decChar_encChar (n : Nat) (h : n < 64) : decChar (encChar n) = some n :=
  (decChar_encChar_fin ⟨n, h⟩).1

theorem encChar_ne_pad (n : Nat) (h : n < 64) : encChar n ≠ '=' :=
  (decChar_encChar_fin ⟨n, h⟩).2

theorem byteOf_eq (a : Byte) (n : Nat) (h : n % 256 = a.val) : byteOf n = a :=
  Fin.ext h

/-- Decoding the padded base64 characters of a byte sequence gives the sequence back. -/
theorem decodeChars_encodeChars : ∀ src : List Byte, decodeChars (encodeChars src) = some src
  | [] => rfl
  | [a] => by
      have ha := a.isLt
      simp only [encodeChars, decodeChars]
      rw [decChar_encChar _ (Nat.mod_lt _ (by decide)),
        decChar_encChar _ (Nat.mod_lt _ (by decide))]
      simp only [and_self, if_true, Option.some.injEq, List.cons.injEq, and_true]
      exact byteOf_eq a _ (by omega)
  | [a, b] => by
      have ha := a.isLt
      have hb := b.isLt
      simp only [encodeChars, decodeChars]
      rw [decChar_encChar _ (Nat.mod_lt _ (by decide)),
        decChar_encChar _ (Nat.mod_lt _ (by decide))]
      have h2 := encChar_ne_pad ((a.val * 65536 + b.val * 256) / 64 % 64)
        (Nat.mod_lt _ (by decide))
      simp only [h2, false_and, if_false]
      rw [decChar_encChar _ (Nat.mod_lt _ (by decide))]
      simp only [and_self, if_true, Option.some.injEq, List.cons.injEq, and_true]
      exact ⟨byteOf_eq a _ (by omega), byteOf_eq b _ (by omega)⟩
  | a :: b :: c :: rest => by
      have ha := a.isLt
      have hb := b.isLt
      have hc := c.isLt
      have ih := decodeChars_encodeChars rest
      simp only [encodeChars, decodeChars]
      rw [decChar_encChar _ (Nat.mod_lt _ (by decide)),
        decChar_encChar _ (Nat.mod_lt _ (by decide))]
      have h2 := encChar_ne_pad ((a.val * 65536 + b.val * 256 + c.val) / 64 % 64)
        (Nat.mod_lt _ (by decide))
      have h3 := encChar_ne_pad ((a.val * 65536 + b.val * 256 + c.val) % 64)
        (Nat.mod_lt _ (by decide))
      simp only [h2, h3, false_and, if_false]
      rw [decChar_encChar _ (Nat.mod_lt _ (by decide)),
        decChar_encChar _ (Nat.mod_lt _ (by decide)), ih]
      simp only [Option.some.injEq, List.cons.injEq, and_true]
      exact ⟨byteOf_eq a _ (by omega), byteOf_eq b _ (by omega), byteOf_eq c _ (by omega)⟩

/-- C12: for every byte sequence, encoding it with padded standard base64 as
`OutputSplitGamePacket` does for the Data field and decoding that string gives the original
bytes back; so the packet `OutputSplitGamePacket` appends decodes to the message it was
given. -/
theorem C12_base64_round_trip (payload : List Byte) :
    DecodeString (EncodeToString payload) = some payload ∧
    ∀ (t : TCPStream) (sg : ScatterGather) (ac : CustomReassemblerContext),
      (t.OutputSplitGamePacket payload sg ac).connLog.Packets.map
          (fun p => DecodeString p.Data)
        = t.connLog.Packets.map (fun p => DecodeString p.Data) ++ [some payload] := by
  have h : DecodeString (EncodeToString payload) = some payload := by
    simp only [DecodeString, EncodeToString]
    exact decodeChars_encodeChars payload
  refine ⟨h, fun t sg ac => ?_⟩
  rw [packets_output, List.map_append]
  simp only [List.map_cons, List.map_nil, h]

/-- The packets of the log after a step: the packets before, then at most one packet, which
carries the timestamp of the delivery. -/
theorem onDelivery_packets (f : Framer) (d : Delivery) :
    ∃ new : List SplitPacket,
      (onDelivery f d).stream.connLog.Packets = f.stream.connLog.Packets ++ new
      ∧ new.length ≤ 1 ∧ ∀ p ∈ new, p.Timestamp = d.ts := by
  rcases onDelivery_stream f d with h | ⟨m, h⟩
  · exact ⟨[], by rw [h]; simp, by simp, by simp⟩
  · refine ⟨_, by rw [h]; exact packets_output _ _ _ _, by simp, ?_⟩
    intro p hp
    simp only [List.mem_singleton] at hp
    rw [hp]

theorem BigEndianUint16_le (b : List Byte) : BigEndianUint16 b ≤ 65535 := by
  unfold BigEndianUint16
  split
  · rename_i b0 b1 _
    have h0 := b0.isLt
    have h1 := b1.isLt
    omega
  · omega

theorem sliceTo_two_checked (data : List Byte) (h : 2 ≤ data.length) :
    (sliceTo data 2).bind BigEndianUint16Checked = some (BigEndianUint16 (data.take 2)) := by
  match data, h with
  | b0 :: b1 :: rest, _ => simp [sliceTo, BigEndianUint16Checked, BigEndianUint16]

theorem KeepFromChecked_ok (sg : ScatterGather) (k : Nat) (h : k ≤ sg.all.length) :
    sg.KeepFromChecked k = some (sg.KeepFrom k) := by
  simp [ScatterGather.KeepFromChecked, h]

/-- C15: `ReassembledSG` never slices out of range: the run with every slice and offset
checked succeeds and agrees with the plain one, for every stream, every available byte
sequence and every skip count.  It either leaves the stream as it is or emits one message
`m`, a prefix of the available bytes with `2 ≤ len m ≤ 65537` and `len m` equal to 2 plus
the big-endian value of its first two bytes, and then keeps from offset `len m`, which is
within the available bytes. -/
theorem C15_framer_total (t : TCPStream) (sg : ScatterGather)
    (ac : CustomReassemblerContext) :
    t.ReassembledSGChecked sg ac = some (t.ReassembledSG sg ac) ∧
    ((t.ReassembledSG sg ac).1 = t ∨
      ∃ m : List Byte,
        t.ReassembledSG sg ac = (t.OutputSplitGamePacket m sg ac, sg.KeepFrom m.length)
        ∧ m = sg.all.take m.length ∧ m.length ≤ sg.all.length
        ∧ 2 ≤ m.length ∧ m.length ≤ 65537
        ∧ m.length = 2 + ((m.getD 0 0).val * 256 + (m.getD 1 0).val)) := by
  simp only [TCPStream.ReassembledSGChecked, TCPStream.ReassembledSG, ScatterGather.Fetch,
    ScatterGather.Lengths, List.take_length]
  by_cases hskip : sg.Skip ≠ -1 ∧ sg.Skip ≠ 0
  · simp only [if_pos hskip, true_or, and_self]
  · simp only [if_neg hskip]
    cases ht : t.isDDONConn with
    | false => simp
    | true =>
        simp only [if_true]
        by_cases h2 : sg.all.length < 2
        · simp only [if_pos h2, KeepFromChecked_ok sg 0 (Nat.zero_le _), Option.map_some',
            true_or, and_self]
        · simp only [if_neg h2, sliceTo_two_checked sg.all (by omega)]
          by_cases h3 : sg.all.length < BigEndianUint16 (sg.all.take 2) + 2
          · simp only [if_pos h3, KeepFromChecked_ok sg 0 (Nat.zero_le _), Option.map_some',
              true_or, and_self]
          · have hle : BigEndianUint16 (sg.all.take 2) + 2 ≤ sg.all.length := by omega
            have hlen : (sg.all.take (BigEndianUint16 (sg.all.take 2) + 2)).length
                = BigEndianUint16 (sg.all.take 2) + 2 := by
              rw [List.length_take]; omega
            simp only [if_neg h3, sliceTo, if_pos hle, KeepFromChecked_ok sg _ hle,
              Option.map_some', true_and]
            right
            refine ⟨sg.all.take (BigEndianUint16 (sg.all.take 2) + 2), ?_, ?_, ?_, ?_, ?_, ?_⟩
            · rw [hlen]
            · rw [hlen]
            · rw [hlen]; exact hle
            · rw [hlen]; omega
            · rw [hlen]
              have := BigEndianUint16_le (sg.all.take 2)
              omega
            · rw [hlen, ← bigEndian_take _ (by rw [hlen]; omega), List.take_take]
              have : min 2 (BigEndianUint16 (sg.all.take 2) + 2) = 2 := by omega
              rw [this]
              omega

theorem sendToConnection_stream (c : Connection) (d : Delivery) :
    (c.sendToConnection d).stream = (onDelivery ⟨c.stream, c.saved d.dir⟩ d).stream := by
  unfold Connection.sendToConnection
  cases d.dir <;> rfl

theorem sendToConnection_saved_same (c : Connection) (d : Delivery) :
    (c.sendToConnection d).saved d.dir = (onDelivery ⟨c.stream, c.saved d.dir⟩ d).pending := by
  unfold Connection.sendToConnection
  cases hd : d.dir <;> simp [Connection.saved]

theorem sendToConnection_saved_other (c : Connection) (d : Delivery)
    (dir : TCPFlowDirection) (h : dir ≠ d.dir) :
    (c.sendToConnection d).saved dir = c.saved dir := by
  unfold Connection.sendToConnection
  cases hd : d.dir <;> cases dir <;> simp_all [Connection.saved]

/-- Over a sequence of deliveries the log only grows at its end, and the timestamps of what
is appended form a sublist of the delivery timestamps. -/
theorem deliverAll_packets (ds : List Delivery) (c : Connection) :
    ∃ new : List SplitPacket,
      (deliverAll c ds).stream.connLog.Packets = c.stream.connLog.Packets ++ new
      ∧ (new.map (fun p => p.Timestamp)).Sublist (ds.map (fun d => d.ts)) := by
  induction ds generalizing c with
  | nil => exact ⟨[], by simp [deliverAll], by simp⟩
  | cons d rest ih =>
      obtain ⟨n1, h1, hl, ht⟩ := onDelivery_packets ⟨c.stream, c.saved d.dir⟩ d
      rw [← sendToConnection_stream] at h1
      obtain ⟨n2, h2, hs⟩ := ih (c.sendToConnection d)
      refine ⟨n1 ++ n2, by simp only [deliverAll, h2, h1, List.append_assoc], ?_⟩
      match n1, hl, ht with
      | [], _, _ => simpa using hs.cons _
      | [p], _, ht =>
          have hp : p.Timestamp = d.ts := ht p (List.mem_singleton_self p)
          simp only [List.cons_append, List.nil_append, List.map_cons, hp]
          exact hs.cons₂ _

/-- C11: the message list of a connection record is append-only and monotonic in capture
time: every delivery, and every sequence of deliveries of either direction, leaves the list
it found as a prefix of the list it leaves; and when the timestamps of the messages already
stored followed by the timestamps of the successive deliveries are non-decreasing, so are
the timestamps of the resulting message list. -/
theorem C11_append_only_monotonic (f : Framer) (c : Connection) (ds : List Delivery) :
    (∀ d : Delivery,
      f.stream.connLog.Packets <+: (onDelivery f d).stream.connLog.Packets) ∧
    (∀ d : Delivery,
      c.stream.connLog.Packets <+: (c.sendToConnection d).stream.connLog.Packets) ∧
    c.stream.connLog.Packets <+: (deliverAll c ds).stream.connLog.Packets ∧
    ((c.stream.connLog.Packets.map (fun p => p.Timestamp) ++ ds.map (fun d => d.ts)).Chain'
        (fun a b => a ≤ b) →
      ((deliverAll c ds).stream.connLog.Packets.map (fun p => p.Timestamp)).Chain'
        (fun a b => a ≤ b)) := by
  refine ⟨fun d => ?_, fun d => ?_, ?_, fun h => ?_⟩
  · obtain ⟨new, hn, _⟩ := onDelivery_packets f d
    exact ⟨new, hn.symm⟩
  · obtain ⟨new, hn, _⟩ := onDelivery_packets ⟨c.stream, c.saved d.dir⟩ d
    rw [sendToConnection_stream]
    exact ⟨new, hn.symm⟩
  · obtain ⟨new, hn, _⟩ := deliverAll_packets ds c
    exact ⟨new, hn.symm⟩
  · obtain ⟨new, hn, hs⟩ := deliverAll_packets ds c
    rw [List.chain'_iff_pairwise] at h ⊢
    rw [hn, List.map_append]
    exact h.sublist ((List.Sublist.refl _).append hs)

/-- C11 at a concrete input: the fresh login stream receives two frames at times 1 and 2,
one in each direction. -/
theorem C11_append_only_monotonic_witness :
    ((loginStream.connLog.Packets.map (fun p => p.Timestamp) ++
        [(⟨TCPFlowDirection.TCPDirClientToServer, 0, [0x00, 0x01, 0xAA], 1⟩ : Delivery),
          ⟨TCPFlowDirection.TCPDirServerToClient, 0, [0x00, 0x00], 2⟩].map
          (fun d => d.ts)).Chain' (fun a b => a ≤ b)) ∧
    ((deliverAll ⟨loginStream, [], []⟩
        [⟨TCPFlowDirection.TCPDirClientToServer, 0, [0x00, 0x01, 0xAA], 1⟩,
          ⟨TCPFlowDirection.TCPDirServerToClient, 0, [0x00, 0x00], 2⟩]).stream.connLog.Packets.map
        (fun p => p.Timestamp)).Chain' (fun a b => a ≤ b) :=
  have h : (loginStream.connLog.Packets.map (fun p => p.Timestamp) ++
        [(⟨TCPFlowDirection.TCPDirClientToServer, 0, [0x00, 0x01, 0xAA], 1⟩ : Delivery),
          ⟨TCPFlowDirection.TCPDirServerToClient, 0, [0x00, 0x00], 2⟩].map
          (fun d => d.ts)).Chain' (fun a b => a ≤ b) := by
    rw [show (loginStream.connLog.Packets.map (fun p => p.Timestamp) ++
        [(⟨TCPFlowDirection.TCPDirClientToServer, 0, [0x00, 0x01, 0xAA], 1⟩ : Delivery),
          ⟨TCPFlowDirection.TCPDirServerToClient, 0, [0x00, 0x00], 2⟩].map
          (fun d => d.ts)) = [1, 2] by decide]
    exact List.chain'_pair.2 (by decide)
  ⟨h,
    (C11_append_only_monotonic ⟨loginStream, []⟩ ⟨loginStream, [], []⟩
      [⟨TCPFlowDirection.TCPDirClientToServer, 0, [0x00, 0x01, 0xAA], 1⟩,
        ⟨TCPFlowDirection.TCPDirServerToClient, 0, [0x00, 0x00], 2⟩]).2.2.2 h⟩

/-- C7 (as stated) fails for a next delivery of the other direction: after the login
stream got `00 05 01 02 03 04 05 00 03 06 07 08` client-to-server, a usable (empty)
server-to-client delivery emits nothing, and the frame `00 03 06 07 08` stays buffered. -/
theorem C7_other_direction_does_not_emit :
    (Connection.sendToConnection ⟨loginStream, [], []⟩
        ⟨TCPFlowDirection.TCPDirClientToServer, 0,
          [0x00, 0x05, 1, 2, 3, 4, 5, 0x00, 0x03, 6, 7, 8], 1⟩).c2s = [0x00, 0x03, 6, 7, 8]
    ∧ ((Connection.sendToConnection ⟨loginStream, [], []⟩
        ⟨TCPFlowDirection.TCPDirClientToServer, 0,
          [0x00, 0x05, 1, 2, 3, 4, 5, 0x00, 0x03, 6, 7, 8], 1⟩).sendToConnection
        ⟨TCPFlowDirection.TCPDirServerToClient, 0, [], 2⟩).stream.connLog.Packets
      = (Connection.sendToConnection ⟨loginStream, [], []⟩
        ⟨TCPFlowDirection.TCPDirClientToServer, 0,
          [0x00, 0x05, 1, 2, 3, 4, 5, 0x00, 0x03, 6, 7, 8], 1⟩).stream.connLog.Packets
    ∧ ((Connection.sendToConnection ⟨loginStream, [], []⟩
        ⟨TCPFlowDirection.TCPDirClientToServer, 0,
          [0x00, 0x05, 1, 2, 3, 4, 5, 0x00, 0x03, 6, 7, 8], 1⟩).sendToConnection
        ⟨TCPFlowDirection.TCPDirServerToClient, 0, [], 2⟩).c2s = [0x00, 0x03, 6, 7, 8] := by
  decide

/-- C7 (amended): a tracked connection whose half-connection for the delivery's direction
holds no bytes and that receives `00 05 p5 00 03 p3` in one no-gap delivery appends exactly
one message, the frame `00 05 p5`, and keeps `00 03 p3` for that direction; the next usable
delivery of the same direction appends exactly the frame `00 03 p3`, while a delivery of
the other direction leaves it buffered.  In general a delivery appends at most one message
to the connection log. -/
theorem C7_deferred_extraction (c : Connection) (p5 p3 : List Byte) (d1 d2 : Delivery)
    (htracked : c.stream.isDDONConn = true) (hempty : c.saved d1.dir = [])
    (h5 : p5.length = 5) (h3 : p3.length = 3)
    (hbytes : d1.bytes = [0x00, 0x05] ++ p5 ++ [0x00, 0x03] ++ p3) (hnogap : d1.skip = 0)
    (husable : d2.skip = 0 ∨ d2.skip = -1) (hdir : d2.dir = d1.dir) :
    let c1 := c.sendToConnection d1
    let c2 := c1.sendToConnection d2
    (∃ dir, c1.stream.connLog.Packets = c.stream.connLog.Packets ++
        [⟨d1.ts, dir, EncodeToString ([0x00, 0x05] ++ p5)⟩])
    ∧ c1.saved d1.dir = [0x00, 0x03] ++ p3
    ∧ (∃ dir, c2.stream.connLog.Packets = c1.stream.connLog.Packets ++
        [⟨d2.ts, dir, EncodeToString ([0x00, 0x03] ++ p3)⟩])
    ∧ c2.saved d1.dir = d2.bytes
    ∧ (∀ d : Delivery, d.dir ≠ d1.dir →
        (c1.sendToConnection d).saved d1.dir = [0x00, 0x03] ++ p3)
    ∧ ∀ (c0 : Connection) (d : Delivery), ∃ new : List SplitPacket,
        (c0.sendToConnection d).stream.connLog.Packets = c0.stream.connLog.Packets ++ new
        ∧ new.length ≤ 1 := by
  intro c1 c2
  obtain ⟨a0, a1, a2, a3, a4, rfl⟩ : ∃ a0 a1 a2 a3 a4, p5 = [a0, a1, a2, a3, a4] := by
    match p5, h5 with
    | [a0, a1, a2, a3, a4], _ => exact ⟨_, _, _, _, _, rfl⟩
  obtain ⟨b0, b1, b2, rfl⟩ : ∃ b0 b1 b2, p3 = [b0, b1, b2] := by
    match p3, h3 with
    | [b0, b1, b2], _ => exact ⟨_, _, _, rfl⟩
  have hf1 : onDelivery ⟨c.stream, c.saved d1.dir⟩ d1
      = ⟨c.stream.OutputSplitGamePacket [0x00, 0x05, a0, a1, a2, a3, a4]
          (buildSG [] d1) ⟨d1.ts, []⟩, [0x00, 0x03, b0, b1, b2]⟩ := by
    rw [hempty, onDelivery_usable c.stream [] d1 (Or.inl hnogap) htracked, hbytes]
    rfl
  have hs1 : c1.stream = c.stream.OutputSplitGamePacket [0x00, 0x05, a0, a1, a2, a3, a4]
      (buildSG [] d1) ⟨d1.ts, []⟩ := by
    simp only [c1, sendToConnection_stream, hf1]
  have hp1 : c1.saved d1.dir = [0x00, 0x03, b0, b1, b2] := by
    simp only [c1, sendToConnection_saved_same, hf1]
  have htr1 : c1.stream.isDDONConn = true := by rw [hs1]; exact htracked
  have hf2 : onDelivery ⟨c1.stream, c1.saved d2.dir⟩ d2
      = ⟨c1.stream.OutputSplitGamePacket [0x00, 0x03, b0, b1, b2]
          (buildSG [0x00, 0x03, b0, b1, b2] d2) ⟨d2.ts, []⟩, d2.bytes⟩ := by
    rw [hdir, hp1, onDelivery_usable c1.stream _ d2 husable htr1]
    have hl : ¬ (([0x00, 0x03, b0, b1, b2] : List Byte) ++ d2.bytes).length < 2 := by
      simp
    have hb : BigEndianUint16 ((([0x00, 0x03, b0, b1, b2] : List Byte) ++ d2.bytes).take 2)
        = 3 := rfl
    have hl2 : ¬ (([0x00, 0x03, b0, b1, b2] : List Byte) ++ d2.bytes).length < 3 + 2 := by
      simp
    rw [if_neg hl, hb, if_neg hl2]
    rfl
  refine ⟨?_, hp1, ?_, ?_, ?_, ?_⟩
  · rw [hs1]; exact ⟨_, packets_output _ _ _ _⟩
  · have : c2.stream = c1.stream.OutputSplitGamePacket [0x00, 0x03, b0, b1, b2]
        (buildSG [0x00, 0x03, b0, b1, b2] d2) ⟨d2.ts, []⟩ := by
      simp only [c2, sendToConnection_stream, hf2]
    rw [this]; exact ⟨_, packets_output _ _ _ _⟩
  · have : c2.saved d2.dir = d2.bytes := by
      simp only [c2, sendToConnection_saved_same, hf2]
    rw [← hdir]; exact this
  · intro d hd
    rw [sendToConnection_saved_other c1 d d1.dir (fun h => hd h.symm)]
    exact hp1
  · intro c0 d
    obtain ⟨new, hn, hl, _⟩ := onDelivery_packets ⟨c0.stream, c0.saved d.dir⟩ d
    exact ⟨new, by rw [sendToConnection_stream]; exact hn, hl⟩

/-- C7 (amended) at a concrete input on the login stream: both deliveries client-to-server. -/
theorem C7_deferred_extraction_witness :
    (Connection.sendToConnection ⟨loginStream, [], []⟩
        ⟨TCPFlowDirection.TCPDirClientToServer, 0,
          [0x00, 0x05] ++ [1, 2, 3, 4, 5] ++ [0x00, 0x03] ++ [6, 7, 8], 1⟩).saved
        TCPFlowDirection.TCPDirClientToServer
      = [0x00, 0x03] ++ [6, 7, 8]
    ∧ ∃ dir, ((Connection.sendToConnection ⟨loginStream, [], []⟩
        ⟨TCPFlowDirection.TCPDirClientToServer, 0,
          [0x00, 0x05] ++ [1, 2, 3, 4, 5] ++ [0x00, 0x03] ++ [6, 7, 8], 1⟩).sendToConnection
        ⟨TCPFlowDirection.TCPDirClientToServer, 0, [], 2⟩).stream.connLog.Packets
      = (Connection.sendToConnection ⟨loginStream, [], []⟩
        ⟨TCPFlowDirection.TCPDirClientToServer, 0,
          [0x00, 0x05] ++ [1, 2, 3, 4, 5] ++ [0x00, 0x03] ++ [6, 7, 8], 1⟩).stream.connLog.Packets
        ++ [⟨2, dir, EncodeToString ([0x00, 0x03] ++ [6, 7, 8])⟩] :=
  ⟨(C7_deferred_extraction ⟨loginStream, [], []⟩ [1, 2, 3, 4, 5] [6, 7, 8]
      ⟨TCPFlowDirection.TCPDirClientToServer, 0,
        [0x00, 0x05] ++ [1, 2, 3, 4, 5] ++ [0x00, 0x03] ++ [6, 7, 8], 1⟩
      ⟨TCPFlowDirection.TCPDirClientToServer, 0, [], 2⟩
      (by decide) rfl rfl rfl rfl rfl (Or.inl rfl) rfl).2.1,
   (C7_deferred_extraction ⟨loginStream, [], []⟩ [1, 2, 3, 4, 5] [6, 7, 8]
      ⟨TCPFlowDirection.TCPDirClientToServer, 0,
        [0x00, 0x05] ++ [1, 2, 3, 4, 5] ++ [0x00, 0x03] ++ [6, 7, 8], 1⟩
      ⟨TCPFlowDirection.TCPDirClientToServer, 0, [], 2⟩
      (by decide) rfl rfl rfl rfl rfl (Or.inl rfl) rfl).2.2.1⟩

theorem output_isSideSwapped (t : TCPStream) (m : List Byte) (sg : ScatterGather)
    (ac : CustomReassemblerContext) :
    (t.OutputSplitGamePacket m sg ac).isSideSwapped = t.isSideSwapped := rfl

/-- The two directions get different direction texts. -/
theorem direction_text_ne (sw : Bool) (a b : TCPFlowDirection) (h : a ≠ b) :
    (if xor (decide (a = TCPFlowDirection.TCPDirClientToServer)) sw then "C2S" else "S2C")
      ≠ (if xor (decide (b = TCPFlowDirection.TCPDirClientToServer)) sw
          then "C2S" else "S2C") := by
  cases a <;> cases b <;> cases sw <;> first | exact absurd rfl h | decide

/-- A usable delivery to a tracked connection keeps it tracked and its swap flag fixed; the
messages it appends carry the delivery's timestamp and direction text, and together with
what is then kept for that direction they are what was kept before followed by the
delivered bytes. -/
theorem sendToConnection_conserves (c : Connection) (d : Delivery)
    (husable : d.skip = 0 ∨ d.skip = -1) (htracked : c.stream.isDDONConn = true) :
    (c.sendToConnection d).stream.isDDONConn = true ∧
    (c.sendToConnection d).stream.isSideSwapped = c.stream.isSideSwapped ∧
    ∃ msgs : List (List Byte),
      (c.sendToConnection d).stream.connLog.Packets
        = c.stream.connLog.Packets ++ msgs.map (fun m =>
            (⟨d.ts,
              if xor (decide (d.dir = TCPFlowDirection.TCPDirClientToServer))
                c.stream.isSideSwapped then "C2S" else "S2C",
              EncodeToString m⟩ : SplitPacket))
      ∧ msgs.flatten ++ (c.sendToConnection d).saved d.dir = c.saved d.dir ++ d.bytes := by
  have h := onDelivery_usable c.stream (c.saved d.dir) d husable htracked
  rw [sendToConnection_stream, sendToConnection_saved_same]
  by_cases h2 : (c.saved d.dir ++ d.bytes).length < 2
  · rw [if_pos h2] at h
    rw [h]
    exact ⟨htracked, rfl, [], by simp, by simp⟩
  · rw [if_neg h2] at h
    by_cases h3 : (c.saved d.dir ++ d.bytes).length
        < BigEndianUint16 ((c.saved d.dir ++ d.bytes).take 2) + 2
    · rw [if_pos h3] at h
      rw [h]
      exact ⟨htracked, rfl, [], by simp, by simp⟩
    · rw [if_neg h3] at h
      rw [h]
      refine ⟨htracked, rfl, [(c.saved d.dir ++ d.bytes).take
          (BigEndianUint16 ((c.saved d.dir ++ d.bytes).take 2) + 2)], ?_, ?_⟩
      · simp only [packets_output, List.map_cons, List.map_nil]
        rfl
      · simp only [List.flatten_cons, List.flatten_nil, List.append_nil,
          List.take_append_drop]

/-- Conservation per direction over a sequence of usable deliveries. -/
theorem deliverAll_conserves (ds : List Delivery) (c : Connection)
    (htracked : c.stream.isDDONConn = true)
    (husable : ∀ d ∈ ds, d.skip = 0 ∨ d.skip = -1) (dir : TCPFlowDirection) :
    ∃ (new : List SplitPacket) (msgs : List (List Byte)),
      (deliverAll c ds).stream.connLog.Packets = c.stream.connLog.Packets ++ new
      ∧ (new.filter (fun p => decide (p.Direction =
            if xor (decide (dir = TCPFlowDirection.TCPDirClientToServer))
              c.stream.isSideSwapped then "C2S" else "S2C"))).map (fun p => p.Data)
          = msgs.map EncodeToString
      ∧ msgs.flatten ++ (deliverAll c ds).saved dir
          = c.saved dir ++ ((ds.filter (fun d => decide (d.dir = dir))).map
              (fun d => d.bytes)).flatten := by
  induction ds generalizing c with
  | nil => exact ⟨[], [], by simp [deliverAll], by simp, by simp [deliverAll]⟩
  | cons d rest ih =>
      obtain ⟨htr1, hsw1, m1, hp1, hb1⟩ :=
        sendToConnection_conserves c d (husable d (List.mem_cons_self _ _)) htracked
      obtain ⟨new2, m2, hp2, hd2, hb2⟩ :=
        ih (c.sendToConnection d) htr1 (fun x hx => husable x (List.mem_cons_of_mem _ hx))
      rw [hsw1] at hd2
      generalize hmk : (fun m : List Byte =>
            (⟨d.ts,
              if xor (decide (d.dir = TCPFlowDirection.TCPDirClientToServer))
                c.stream.isSideSwapped then "C2S" else "S2C",
              EncodeToString m⟩ : SplitPacket)) = mk at hp1
      have hdata : ∀ m, (mk m).Data = EncodeToString m := by
        intro m; rw [← hmk]
      have hlabel : ∀ m, (mk m).Direction =
          if xor (decide (d.dir = TCPFlowDirection.TCPDirClientToServer))
            c.stream.isSideSwapped then "C2S" else "S2C" := by
        intro m; rw [← hmk]
      by_cases hd : d.dir = dir
      · refine ⟨m1.map mk ++ new2, m1 ++ m2, ?_, ?_, ?_⟩
        · simp only [deliverAll, hp2, hp1, List.append_assoc]
        · rw [List.filter_append, List.map_append, hd2, List.map_append]
          congr 1
          rw [List.filter_eq_self.2]
          · rw [List.map_map]
            exact List.map_congr_left (fun m _ => hdata m)
          · intro p hp
            simp only [List.mem_map] at hp
            obtain ⟨m, _, rfl⟩ := hp
            simp only [hlabel, hd, decide_eq_true_eq]
        · simp only [deliverAll, List.flatten_append, List.append_assoc, hb2]
          rw [List.filter_cons_of_pos (by simp [hd]), List.map_cons, List.flatten_cons,
            ← List.append_assoc, ← List.append_assoc, ← hd, hb1]
      · refine ⟨m1.map mk ++ new2, m2, ?_, ?_, ?_⟩
        · simp only [deliverAll, hp2, hp1, List.append_assoc]
        · rw [List.filter_append, List.map_append, hd2]
          rw [List.filter_eq_nil_iff.2]
          · rfl
          · intro p hp
            simp only [List.mem_map] at hp
            obtain ⟨m, _, rfl⟩ := hp
            simp only [hlabel, decide_eq_true_eq]
            exact direction_text_ne _ _ _ hd
        · simp only [deliverAll, hb2]
          rw [sendToConnection_saved_other c d dir (fun h => hd h.symm),
            List.filter_cons_of_neg (by simp [hd])]

/-- C13 (as stated) fails on two-way traffic: the login connection gets `00 02 AB`
client-to-server, `00 00` server-to-client and `CD` client-to-server, all usable.  The
messages emitted are `00 00` and then `00 02 AB CD`, nothing stays pending, and their
concatenation is not the delivered bytes in delivery order. -/
theorem C13_order_not_conserved_across_directions :
    ((deliverAll ⟨loginStream, [], []⟩
        [⟨TCPFlowDirection.TCPDirClientToServer, 0, [0x00, 0x02, 0xAB], 1⟩,
         ⟨TCPFlowDirection.TCPDirServerToClient, 0, [0x00, 0x00], 2⟩,
         ⟨TCPFlowDirection.TCPDirClientToServer, 0, [0xCD], 3⟩]).stream.connLog.Packets.map
        (fun p => DecodeString p.Data))
      = [some [0x00, 0x00], some [0x00, 0x02, 0xAB, 0xCD]]
    ∧ (deliverAll ⟨loginStream, [], []⟩
        [⟨TCPFlowDirection.TCPDirClientToServer, 0, [0x00, 0x02, 0xAB], 1⟩,
         ⟨TCPFlowDirection.TCPDirServerToClient, 0, [0x00, 0x00], 2⟩,
         ⟨TCPFlowDirection.TCPDirClientToServer, 0, [0xCD], 3⟩]).c2s = []
    ∧ (deliverAll ⟨loginStream, [], []⟩
        [⟨TCPFlowDirection.TCPDirClientToServer, 0, [0x00, 0x02, 0xAB], 1⟩,
         ⟨TCPFlowDirection.TCPDirServerToClient, 0, [0x00, 0x00], 2⟩,
         ⟨TCPFlowDirection.TCPDirClientToServer, 0, [0xCD], 3⟩]).s2c = []
    ∧ ([0x00, 0x00] ++ [0x00, 0x02, 0xAB, 0xCD] : List Byte)
      ≠ [0x00, 0x02, 0xAB] ++ [0x00, 0x00] ++ [0xCD] := by
  decide

/-- C13 (amended): bytes are conserved per direction.  On a tracked connection, after any
sequence of usable deliveries (skip `0` or `-1`) of both directions, for each direction the
messages appended with that direction's text, in order, followed by the bytes finally kept
for that direction are the bytes kept for it at the start followed by the chunks delivered
in that direction, in delivery order.  Each Data field decodes back to its message. -/
theorem C13_byte_conservation (c : Connection) (ds : List Delivery) (dir : TCPFlowDirection)
    (htracked : c.stream.isDDONConn = true)
    (husable : ∀ d ∈ ds, d.skip = 0 ∨ d.skip = -1) :
    ∃ (new : List SplitPacket) (msgs : List (List Byte)),
      (deliverAll c ds).stream.connLog.Packets = c.stream.connLog.Packets ++ new
      ∧ (new.filter (fun p => decide (p.Direction =
            if xor (decide (dir = TCPFlowDirection.TCPDirClientToServer))
              c.stream.isSideSwapped then "C2S" else "S2C"))).map (fun p => p.Data)
          = msgs.map EncodeToString
      ∧ msgs.map (fun m => DecodeString (EncodeToString m)) = msgs.map some
      ∧ msgs.flatten ++ (deliverAll c ds).saved dir
          = c.saved dir ++ ((ds.filter (fun d => decide (d.dir = dir))).map
              (fun d => d.bytes)).flatten := by
  obtain ⟨new, msgs, hp, hd, hb⟩ := deliverAll_conserves ds c htracked husable dir
  refine ⟨new, msgs, hp, hd, ?_, hb⟩
  apply List.map_congr_left
  intro m _
  simp only [DecodeString, EncodeToString]
  exact decodeChars_encodeChars m

/-- C13 (amended) at a concrete input: the two-way traffic above, client-to-server side. -/
theorem C13_byte_conservation_witness :
    loginStream.isDDONConn = true ∧
    (∀ d ∈ [(⟨TCPFlowDirection.TCPDirClientToServer, 0, [0x00, 0x02, 0xAB], 1⟩ : Delivery),
         ⟨TCPFlowDirection.TCPDirServerToClient, 0, [0x00, 0x00], 2⟩,
         ⟨TCPFlowDirection.TCPDirClientToServer, 0, [0xCD], 3⟩],
      d.skip = 0 ∨ d.skip = -1) ∧
    ∃ (new : List SplitPacket) (msgs : List (List Byte)),
      (deliverAll ⟨loginStream, [], []⟩
          [⟨TCPFlowDirection.TCPDirClientToServer, 0, [0x00, 0x02, 0xAB], 1⟩,
           ⟨TCPFlowDirection.TCPDirServerToClient, 0, [0x00, 0x00], 2⟩,
           ⟨TCPFlowDirection.TCPDirClientToServer, 0, [0xCD], 3⟩]).stream.connLog.Packets
        = loginStream.connLog.Packets ++ new
      ∧ (new.filter (fun p => decide (p.Direction =
            if xor (decide (TCPFlowDirection.TCPDirClientToServer
                = TCPFlowDirection.TCPDirClientToServer))
              loginStream.isSideSwapped then "C2S" else "S2C"))).map (fun p => p.Data)
          = msgs.map EncodeToString
      ∧ msgs.map (fun m => DecodeString (EncodeToString m)) = msgs.map some
      ∧ msgs.flatten ++ (deliverAll ⟨loginStream, [], []⟩
          [⟨TCPFlowDirection.TCPDirClientToServer, 0, [0x00, 0x02, 0xAB], 1⟩,
           ⟨TCPFlowDirection.TCPDirServerToClient, 0, [0x00, 0x00], 2⟩,
           ⟨TCPFlowDirection.TCPDirClientToServer, 0, [0xCD], 3⟩]).saved
            TCPFlowDirection.TCPDirClientToServer
        = [] ++ (([(⟨TCPFlowDirection.TCPDirClientToServer, 0, [0x00, 0x02, 0xAB], 1⟩ : Delivery),
           ⟨TCPFlowDirection.TCPDirServerToClient, 0, [0x00, 0x00], 2⟩,
           ⟨TCPFlowDirection.TCPDirClientToServer, 0, [0xCD], 3⟩].filter
            (fun d => decide (d.dir = TCPFlowDirection.TCPDirClientToServer))).map
              (fun d => d.bytes)).flatten :=
  ⟨by decide, by decide,
    C13_byte_conservation ⟨loginStream, [], []⟩
      [⟨TCPFlowDirection.TCPDirClientToServer, 0, [0x00, 0x02, 0xAB], 1⟩,
       ⟨TCPFlowDirection.TCPDirServerToClient, 0, [0x00, 0x00], 2⟩,
       ⟨TCPFlowDirection.TCPDirClientToServer, 0, [0xCD], 3⟩]
      TCPFlowDirection.TCPDirClientToServer (by decide) (by decide)⟩

/-- C14: role normalization points at the server.  For a new flow whose transport endpoints
are the first packet's ports, the stream is tracked exactly when one of the two ports is a
service port (52000 or 52100), and exactly when the derived ServerType is non-empty; the
normalized destination is the first packet's source exactly when the destination port is
not a service port and the source port is one.  For a tracked flow the normalized
destination port is a service port and ServerType is "login" for 52100 and "world" for
52000; for an untracked flow the stream is untracked and ServerType is "". -/
theorem C14_normalization_points_at_server (net : Flow String) (tcp : TCP)
    (ac : CustomReassemblerContext) :
    let s := (TCPStreamFactory.New net tcp.TransportFlow tcp ac).1
    let trackedSrc := tcp.SrcPort.val = 52000 ∨ tcp.SrcPort.val = 52100
    let trackedDst := tcp.DstPort.val = 52000 ∨ tcp.DstPort.val = 52100
    (s.isDDONConn = true ↔ (trackedDst ∨ trackedSrc)) ∧
    (s.isDDONConn = true ↔ s.connLog.ServerType ≠ "") ∧
    (trackedDst → s.transport.dst = tcp.DstPort ∧ s.net.dst = net.dst) ∧
    (¬ trackedDst ∧ trackedSrc → s.transport.dst = tcp.SrcPort ∧ s.net.dst = net.src) ∧
    ((trackedDst ∨ trackedSrc) →
      (s.transport.dst.val = 52000 ∨ s.transport.dst.val = 52100) ∧
      (s.transport.dst.val = 52100 → s.connLog.ServerType = "login") ∧
      (s.transport.dst.val = 52000 → s.connLog.ServerType = "world") ∧
      (s.connLog.ServerType = "login" ∨ s.connLog.ServerType = "world")) ∧
    (¬ (trackedDst ∨ trackedSrc) →
      s.isDDONConn = false ∧ s.connLog.ServerType = "" ∧ s.transport.dst = tcp.DstPort) := by
  intro s trackedSrc trackedDst
  have hl : ("login" : String) ≠ "" := by decide
  have hw : ("world" : String) ≠ "" := by decide
  have hiff := fun n => IsDDONServer_iff n
  by_cases hd : tcp.DstPort.val = 52000 ∨ tcp.DstPort.val = 52100
  · have hD : IsDDONServer tcp.DstPort.val = true := (hiff _).2 hd
    simp only [s, trackedSrc, trackedDst, New_eq, TCP.TransportFlow, hD]
    rcases hd with h | h <;> simp [h, hl, hw]
  · have hD : IsDDONServer tcp.DstPort.val = false := by
      rw [← Bool.not_eq_true, hiff]; exact hd
    have h1 : tcp.DstPort.val ≠ 52100 := fun h => hd (Or.inr h)
    have h2 : tcp.DstPort.val ≠ 52000 := fun h => hd (Or.inl h)
    by_cases hs : tcp.SrcPort.val = 52000 ∨ tcp.SrcPort.val = 52100
    · have hS : IsDDONServer tcp.SrcPort.val = true := (hiff _).2 hs
      simp only [s, trackedSrc, trackedDst, New_eq, TCP.TransportFlow, hD, hS, Flow.Reverse]
      rcases hs with h | h <;> simp [h, h1, h2, hl, hw]
    · have hS : IsDDONServer tcp.SrcPort.val = false := by
        rw [← Bool.not_eq_true, hiff]; exact hs
      have h3 : tcp.SrcPort.val ≠ 52100 := fun h => hs (Or.inr h)
      have h4 : tcp.SrcPort.val ≠ 52000 := fun h => hs (Or.inl h)
      simp only [s, trackedSrc, trackedDst, New_eq, TCP.TransportFlow, hD, hS]
      simp [h1, h2, h3, h4]

end DdonPcapSplit
